import Mathlib

/-!
Shallow embedding of the Live-weather-dashboard repository (src/app.py and
src/fetch_weather.py) and proofs about its two logical components: the
current-conditions projection and the forecast aggregator.

Numbers coming from the JSON payload are modelled as `Rat`; JSON objects are
modelled as structures whose optional fields are `Option`-valued, mirroring
exactly the fields the code reads.  The conversion of a POSIX timestamp to a
local calendar-date string (`datetime.fromtimestamp(ts).date().isoformat()`)
depends on the ambient time zone, so it is kept as an explicit parameter
`dateOf : Int → String` of the aggregator; nothing below depends on its
concrete behaviour.
-/

namespace App

/-- One element of a forecast item `weather` array, as read by app.py
(`x["weather"][0]["description"]`, `x["weather"][0]["icon"]`): both fields
are accessed unconditionally once the entry exists. -/
structure WeatherEntry where
  description : String
  icon : String
deriving DecidableEq

/-- The `main` object of a forecast item; `x["main"]["temp"]` is read
unconditionally once `main` is present and truthy. -/
structure MainObj where
  temp : Rat

/-- The `rain` object of a forecast item; the `3h` field is optional
(`x.get("rain", {}).get("3h", 0)`). -/
structure RainObj where
  h3 : Option Rat

/-- One sample of the forecast response `list` array.  A falsy (absent or
empty) `main`, `rain` or `weather` value is modelled as `none` / `[]`. -/
structure ForecastItem where
  dt : Option Int
  main : Option MainObj
  rain : Option RainObj
  weather : List WeatherEntry

/-- The forecast response body; `data.get("list", [])` treats an absent
`list` key as the empty list. -/
structure ForecastData where
  list : Option (List ForecastItem)

/-- One aggregated day, as built by `get_forecast` in app.py. -/
structure DailySummary where
  date : String
  temp_min : Rat
  temp_max : Rat
  rain_mm : Rat
  description : String
  icon : Option String

/-- Keys of a `defaultdict` in insertion order: first occurrences of the
elements of the input list, in encounter order, skipping elements already
seen. -/
def firstsAux (seen : List String) : List String → List String
  | [] => []
  | a :: l => if a ∈ seen then firstsAux seen l else a :: firstsAux (a :: seen) l

/-- Distinct elements of a list in first-encounter order (the key order of
the `daily` defaultdict in `get_forecast`). -/
def firsts (l : List String) : List String :=
  firstsAux [] l

/-- The calendar-date key of a forecast item, when it has a timestamp
(`item.get("dt")`; items without one are discarded). -/
def itemDate (dateOf : Int → String) (x : ForecastItem) : Option String :=
  x.dt.map dateOf

/-- The samples grouped under date key `d`: the items whose timestamp maps
to `d`, in their original order (the append order of `daily[date]`). -/
def itemsFor (dateOf : Int → String) (items : List ForecastItem) (d : String) :
    List ForecastItem :=
  items.filter (fun x => decide (itemDate dateOf x = some d))

/-- Temperatures of the given samples:
`[x["main"]["temp"] for x in items if x.get("main")]`. -/
def tempsOf (items : List ForecastItem) : List Rat :=
  (items.filterMap ForecastItem.main).map MainObj.temp

/-- Three-hour rainfall of one sample, `x.get("rain", {}).get("3h", 0)`,
defaulting to `0` when the `rain` object or its `3h` field is absent. -/
def rainOf (x : ForecastItem) : Rat :=
  (x.rain.bind RainObj.h3).getD 0

/-- Descriptions of the samples that have a weather entry:
`[x["weather"][0]["description"] for x in items if x.get("weather")]`. -/
def descsOf (items : List ForecastItem) : List String :=
  items.filterMap (fun x => x.weather.head?.map WeatherEntry.description)

/-- Icons of the samples that have a weather entry:
`[x["weather"][0]["icon"] for x in items if x.get("weather")]`. -/
def iconsOf (items : List ForecastItem) : List String :=
  items.filterMap (fun x => x.weather.head?.map WeatherEntry.icon)

/-- Model of `Counter(l).most_common(1)[0][0]` for a nonempty `l` (and `none` for an
empty one): the element of `l` with the largest number of occurrences,
ties resolved in favour of the element encountered first.  The fold keeps
the current best and replaces it only on a strictly larger count, which is
exactly the stable largest-count selection `Counter.most_common` performs. -/
def mostCommon (l : List String) : Option String :=
  match l with
  | [] => none
  | a :: rest =>
    some (rest.foldl (fun best x => if l.count x > l.count best then x else best) a)

/-- The body of the per-date loop of `get_forecast`: the daily summary for
date key `d`, or `none` when no sample of that date carries a temperature
(`if not temps: continue`). -/
def daySummary (dateOf : Int → String) (items : List ForecastItem) (d : String) :
    Option DailySummary :=
  let its := itemsFor dateOf items d
  match tempsOf its with
  | [] => none
  | t :: ts =>
    some { date := d
           temp_min := ts.foldl min t
           temp_max := ts.foldl max t
           rain_mm := (its.map rainOf).sum
           description := (mostCommon (descsOf its)).getD ""
           icon := mostCommon (iconsOf its) }

/-- Function `get_forecast` from app.py, starting after the HTTP fetch: group the
samples by calendar date, sort the distinct date keys, keep the first
`days` of them, and aggregate each kept date (dropping dates without any
temperature sample). -/
def get_forecast (dateOf : Int → String) (data : ForecastData) (days : Nat) :
    List DailySummary :=
  let items := data.list.getD []
  let days_sorted := List.insertionSort (· ≤ ·)
    (firsts (items.filterMap (itemDate dateOf)))
  (days_sorted.take days).filterMap (daySummary dateOf items)

/-- The `sys` object of a current-conditions response; every field read from
it is read with `.get`, hence optional. -/
structure SysObj where
  country : Option String
  sunrise : Option Int
  sunset : Option Int

/-- The `main` object of a current-conditions response; all four fields are
read with `.get`. -/
structure CurMain where
  temp : Option Rat
  feels_like : Option Rat
  humidity : Option Rat
  pressure : Option Rat

/-- One element of the current-conditions `weather` array; `description` and
`icon` are read with `.get`. -/
structure CurWeatherEntry where
  description : Option String
  icon : Option String

/-- The `wind` object; `speed` is read with `.get`. -/
structure WindObj where
  speed : Option Rat

/-- The `clouds` object; `all` is read with `.get`. -/
structure CloudsObj where
  all : Option Rat

/-- The `rain` object of a current-conditions response; the one-hour field
`1h` is read with `.get("1h", 0)`. -/
structure CurRain where
  h1 : Option Rat

/-- A current-conditions response body.  Each top-level key the code reads is
a field here; a falsy (absent or empty) object is modelled as `none`. -/
structure CurrentData where
  name : Option String
  sys : Option SysObj
  main : Option CurMain
  weather : Option (List CurWeatherEntry)
  wind : Option WindObj
  clouds : Option CloudsObj
  rain : Option CurRain
  dt : Option Int

/-- The record returned by `get_weather` in app.py.  Every field except
`rain_1h` may be `none`; `rain_1h` always carries a number because the code
defaults it to `0`. -/
structure CurrentConditions where
  city : Option String
  country : Option String
  temp : Option Rat
  feels_like : Option Rat
  humidity : Option Rat
  pressure : Option Rat
  description : Option String
  icon : Option String
  wind_speed : Option Rat
  clouds : Option Rat
  rain_1h : Rat
  sunrise : Option Int
  sunset : Option Int
  dt : Option Int

/-- A current-conditions weather entry with no fields, the `{}` element of
the default `[{}]` used when the `weather` key is absent. -/
def emptyCurEntry : CurWeatherEntry :=
  { description := none, icon := none }

/-- Function `get_weather` from app.py, starting after the HTTP fetch: project the
response body into a `CurrentConditions` record with `.get` accesses
everywhere except `data.get("weather", [{}])[0]`, whose `[0]` indexing
raises when the `weather` key holds an empty array; that raising path is the
`none` result. -/
def get_weather (data : CurrentData) : Option CurrentConditions :=
  match (data.weather.getD [emptyCurEntry]).head? with
  | none => none
  | some weather0 =>
    some { city := data.name
           country := data.sys.bind SysObj.country
           temp := data.main.bind CurMain.temp
           feels_like := data.main.bind CurMain.feels_like
           humidity := data.main.bind CurMain.humidity
           pressure := data.main.bind CurMain.pressure
           description := weather0.description
           icon := weather0.icon
           wind_speed := data.wind.bind WindObj.speed
           clouds := data.clouds.bind CloudsObj.all
           rain_1h := match data.rain with
                      | none => 0
                      | some r => r.h1.getD 0
           sunrise := data.sys.bind SysObj.sunrise
           sunset := data.sys.bind SysObj.sunset
           dt := data.dt }

/-- Module-level startup of app.py: `API_KEY = os.getenv(...)` followed by
`if not API_KEY: st.error(...); st.stop()`.  The environment variable is
`none` when unset and `some ""` when set to the empty string; both are falsy
and stop the script before any fetch code runs.  The result is the key the
rest of the module runs with, or `none` when the script stopped. -/
def startupKey (env : Option String) : Option String :=
  match env with
  | none => none
  | some k => if k = "" then none else some k

end App

namespace FetchWeather

/-- Errors of `get_weather` in fetch_weather.py: the `RuntimeError` raised
when the credential is falsy, and the `KeyError` / `IndexError` raised by
the bracket accesses on a response missing a required part. -/
inductive FwError
  | missingKey
  | badResponse

/-- A response body for fetch_weather.py, holding the keys that file reads. -/
structure FwData where
  name : Option String
  main : Option App.CurMain
  weather : Option (List App.CurWeatherEntry)
  wind : Option App.WindObj

/-- The record returned by `get_weather` in fetch_weather.py: `temp`,
`description` and `icon` are obtained by bracket access and are therefore
present whenever the call succeeds. -/
structure FwRecord where
  city : Option String
  temp : Rat
  feels_like : Option Rat
  humidity : Option Rat
  pressure : Option Rat
  description : String
  icon : String
  wind_speed : Option Rat

/-- Function `get_weather` from fetch_weather.py.  It first checks the credential:
`if not API_KEY: raise RuntimeError(...)` makes a falsy key a per-call
error, raised before the HTTP request.  On a response it reads
`data["main"]["temp"]`, `data["weather"][0]["description"]` and
`data["weather"][0]["icon"]` with bracket accesses (raising on a missing
part, modelled as `badResponse`) and the remaining fields with `.get`. -/
def get_weather (apiKey : Option String) (data : FwData) : Except FwError FwRecord :=
  if apiKey = none ∨ apiKey = some "" then
    Except.error FwError.missingKey
  else
    match data.main with
    | none => Except.error FwError.badResponse
    | some m =>
      match m.temp with
      | none => Except.error FwError.badResponse
      | some t =>
        match data.weather with
        | none => Except.error FwError.badResponse
        | some ws =>
          match ws.head? with
          | none => Except.error FwError.badResponse
          | some w0 =>
            match w0.description, w0.icon with
            | some desc, some ic =>
              Except.ok { city := data.name
                          temp := t
                          feels_like := m.feels_like
                          humidity := m.humidity
                          pressure := m.pressure
                          description := desc
                          icon := ic
                          wind_speed := data.wind.bind App.WindObj.speed }
            | _, _ => Except.error FwError.badResponse

end FetchWeather

namespace App

theorem mem_firstsAux (x : String) :
    ∀ (l seen : List String), x ∈ firstsAux seen l ↔ x ∈ l ∧ x ∉ seen := by
  intro l
  induction l with
  | nil => intro seen; simp [firstsAux]
  | cons a l ih =>
    intro seen
    by_cases ha : a ∈ seen
    · rw [firstsAux, if_pos ha, ih]
      constructor
      · rintro ⟨hl, hs⟩; exact ⟨List.mem_cons_of_mem a hl, hs⟩
      · rintro ⟨hl, hs⟩
        rcases List.mem_cons.mp hl with rfl | hl
        · exact absurd ha hs
        · exact ⟨hl, hs⟩
    · rw [firstsAux, if_neg ha]
      simp only [List.mem_cons, ih]
      constructor
      · rintro (rfl | ⟨hl, hs⟩)
        · exact ⟨Or.inl rfl, ha⟩
        · refine ⟨Or.inr hl, fun hx => hs (Or.inr hx)⟩
      · rintro ⟨rfl | hl, hs⟩
        · exact Or.inl rfl
        · by_cases hxa : x = a
          · exact Or.inl hxa
          · exact Or.inr ⟨hl, by simp [hxa, hs]⟩

theorem mem_firsts (x : String) (l : List String) : x ∈ firsts l ↔ x ∈ l := by
  rw [firsts, mem_firstsAux]; simp

theorem nodup_firstsAux :
    ∀ (l seen : List String), (firstsAux seen l).Nodup := by
  intro l
  induction l with
  | nil => intro seen; simp [firstsAux]
  | cons a l ih =>
    intro seen
    by_cases ha : a ∈ seen
    · rw [firstsAux, if_pos ha]; exact ih seen
    · rw [firstsAux, if_neg ha]
      refine List.nodup_cons.mpr ⟨fun hmem => ?_, ih (a :: seen)⟩
      have := (mem_firstsAux a l (a :: seen)).mp hmem
      simp at this

theorem nodup_firsts (l : List String) : (firsts l).Nodup :=
  nodup_firstsAux l []

theorem foldl_min_le (l : List Rat) : ∀ a : Rat, l.foldl min a ≤ a := by
  induction l with
  | nil => intro a; simp
  | cons x xs ih =>
    intro a
    calc (x :: xs).foldl min a = xs.foldl min (min a x) := by rw [List.foldl_cons]
    _ ≤ min a x := ih (min a x)
    _ ≤ a := min_le_left a x

theorem le_foldl_max (l : List Rat) : ∀ a : Rat, a ≤ l.foldl max a := by
  induction l with
  | nil => intro a; simp
  | cons x xs ih =>
    intro a
    calc a ≤ max a x := le_max_left a x
    _ ≤ xs.foldl max (max a x) := ih (max a x)
    _ = (x :: xs).foldl max a := by rw [List.foldl_cons]

/-- Invariant of the `most_common` selection fold: starting from a state
that is a maximal, earliest-first element of the processed prefix, the fold
ends in a maximal, earliest-first element of the whole list. -/
theorem mostCommon_fold_invariant (l : List String) :
    ∀ (s p : List String) (b : String), l = p ++ s → b ∈ p →
      (∀ x ∈ p, l.count x ≤ l.count b) →
      (∃ p1 p2, p = p1 ++ b :: p2 ∧ ∀ x ∈ p1, l.count x < l.count b) →
      (s.foldl (fun best x => if l.count x > l.count best then x else best) b) ∈ l ∧
      (∀ x ∈ l, l.count x ≤
        l.count (s.foldl (fun best x => if l.count x > l.count best then x else best) b)) ∧
      (∃ p1 p2, l = p1 ++
          (s.foldl (fun best x => if l.count x > l.count best then x else best) b) :: p2 ∧
        ∀ x ∈ p1, l.count x <
          l.count (s.foldl (fun best x => if l.count x > l.count best then x else best) b)) := by
  intro s
  induction s with
  | nil =>
    intro p b hl hb hmax hfirst
    subst hl
    simp only [List.foldl_nil, List.append_nil]
    exact ⟨by simpa using hb, by simpa using hmax, by simpa using hfirst⟩
  | cons x s ih =>
    intro p b hl hb hmax hfirst
    rw [List.foldl_cons]
    by_cases hc : l.count x > l.count b
    · rw [if_pos hc]
      refine ih (p ++ [x]) x (by simpa using hl) (by simp) ?_ ?_
      · intro y hy
        rcases List.mem_append.mp hy with hy | hy
        · exact le_of_lt (lt_of_le_of_lt (hmax y hy) hc)
        · simp only [List.mem_singleton] at hy; subst hy; exact le_refl _
      · refine ⟨p, [], by simp, fun y hy => lt_of_le_of_lt (hmax y hy) hc⟩
    · rw [if_neg hc]
      push_neg at hc
      obtain ⟨p1, p2, hp, hlt⟩ := hfirst
      refine ih (p ++ [x]) b (by simpa using hl) (List.mem_append.mpr (Or.inl hb)) ?_ ?_
      · intro y hy
        rcases List.mem_append.mp hy with hy | hy
        · exact hmax y hy
        · simp only [List.mem_singleton] at hy; subst hy; exact hc
      · exact ⟨p1, p2 ++ [x], by rw [hp]; simp, hlt⟩

/-- The element selected by `mostCommon` occurs in the list, attains the
maximal occurrence count, and sits at a position before which every element
has a strictly smaller count, so on ties the first-encountered element
wins. -/
theorem mostCommon_spec (l : List String) (d : String) (h : mostCommon l = some d) :
    d ∈ l ∧ (∀ x ∈ l, l.count x ≤ l.count d) ∧
      ∃ p q, l = p ++ d :: q ∧ ∀ x ∈ p, l.count x < l.count d := by
  match hl : l with
  | [] => simp [mostCommon] at h
  | a :: rest =>
    rw [mostCommon] at h
    have hinv := mostCommon_fold_invariant (a :: rest) rest [a] a rfl
      (List.mem_singleton.mpr rfl) (by simp) ⟨[], [], by simp, by simp⟩
    obtain ⟨hmem, hmax, hfirst⟩ := hinv
    injection h with h
    rw [h] at hmem hmax hfirst
    exact ⟨hmem, hmax, hfirst⟩

theorem mostCommon_eq_none (l : List String) : mostCommon l = none ↔ l = [] := by
  match l with
  | [] => simp [mostCommon]
  | a :: rest => simp [mostCommon]

/-- The distinct date keys of a forecast response, in first-encounter order:
the key set of the `daily` grouping. -/
def distinctDates (dateOf : Int → String) (data : ForecastData) : List String :=
  firsts ((data.list.getD []).filterMap (itemDate dateOf))

/-- The list `days_sorted` in `get_forecast`: the distinct date keys in ascending
lexicographic order. -/
def sortedDates (dateOf : Int → String) (data : ForecastData) : List String :=
  List.insertionSort (· ≤ ·) (distinctDates dateOf data)

theorem get_forecast_eq (dateOf : Int → String) (data : ForecastData) (days : Nat) :
    get_forecast dateOf data days =
      ((sortedDates dateOf data).take days).filterMap
        (daySummary dateOf (data.list.getD [])) := rfl

theorem sortedDates_nodup (dateOf : Int → String) (data : ForecastData) :
    (sortedDates dateOf data).Nodup :=
  ((List.perm_insertionSort _ (distinctDates dateOf data)).symm).nodup
    (nodup_firsts _)

theorem sortedDates_sorted_lt (dateOf : Int → String) (data : ForecastData) :
    List.Sorted (· < ·) (sortedDates dateOf data) :=
  List.Sorted.lt_of_le (List.sorted_insertionSort _ _) (sortedDates_nodup dateOf data)

theorem sortedDates_length (dateOf : Int → String) (data : ForecastData) :
    (sortedDates dateOf data).length = (distinctDates dateOf data).length :=
  (List.perm_insertionSort _ _).length_eq

/-- All the facts `get_forecast` guarantees about one emitted summary, read
off the record it builds for a date key with a nonempty temperature list. -/
theorem daySummary_eq_some (dateOf : Int → String) (items : List ForecastItem)
    (d : String) (s : DailySummary)
    (h : daySummary dateOf items d = some s) :
    s.date = d ∧ s.temp_min ≤ s.temp_max ∧
      s.rain_mm = ((itemsFor dateOf items d).map rainOf).sum ∧
      s.description = (mostCommon (descsOf (itemsFor dateOf items d))).getD "" ∧
      s.icon = mostCommon (iconsOf (itemsFor dateOf items d)) := by
  rw [daySummary] at h
  cases htemps : tempsOf (itemsFor dateOf items d) with
  | nil => rw [htemps] at h; exact absurd h (by simp)
  | cons t ts =>
    rw [htemps] at h
    injection h with h
    subst h
    refine ⟨rfl, ?_, rfl, rfl, rfl⟩
    exact le_trans (foldl_min_le ts t) (le_foldl_max ts t)

theorem daySummary_isSome_iff (dateOf : Int → String) (items : List ForecastItem)
    (d : String) :
    (daySummary dateOf items d).isSome ↔ tempsOf (itemsFor dateOf items d) ≠ [] := by
  rw [daySummary]
  cases htemps : tempsOf (itemsFor dateOf items d) with
  | nil => simp [htemps]
  | cons t ts => simp [htemps]

/-- The date fields of the summaries built from a key list form a sublist of
that key list. -/
theorem map_date_filterMap_sublist (dateOf : Int → String) (items : List ForecastItem) :
    ∀ ks : List String,
      List.Sublist ((ks.filterMap (daySummary dateOf items)).map DailySummary.date) ks := by
  intro ks
  induction ks with
  | nil => simp
  | cons k ks ih =>
    cases hk : daySummary dateOf items k with
    | none => rw [List.filterMap_cons_none hk]; exact ih.cons k
    | some s =>
      rw [List.filterMap_cons_some hk, List.map_cons,
        (daySummary_eq_some dateOf items k s hk).1]
      exact ih.cons₂ k

/-- Membership in the aggregator output, unpacked: the date of an emitted
summary is one of the first `days` sorted date keys, and the summary is the
aggregate the per-date loop builds for that key. -/
theorem mem_get_forecast (dateOf : Int → String) (data : ForecastData) (days : Nat)
    (s : DailySummary) (h : s ∈ get_forecast dateOf data days) :
    s.date ∈ (sortedDates dateOf data).take days ∧
      daySummary dateOf (data.list.getD []) s.date = some s := by
  rw [get_forecast_eq] at h
  obtain ⟨k, hk, hsome⟩ := List.mem_filterMap.mp h
  have hdate := (daySummary_eq_some dateOf (data.list.getD []) k s hsome).1
  constructor
  · rw [hdate]; exact hk
  · rw [hdate]; exact hsome

/-- C1: for a forecast response with `N` distinct sample dates and a
requested day count `days ≥ 1`, `get_forecast` returns at most
`min N days` summaries, whose dates are strictly ascending (hence pairwise
distinct) in the lexicographic string order the code sorts by. -/
theorem forecast_length_le_and_dates_sorted (dateOf : Int → String)
    (data : ForecastData) (days : Nat) (hdays : 1 ≤ days) :
    (get_forecast dateOf data days).length ≤
        min (distinctDates dateOf data).length days ∧
      List.Sorted (· < ·) ((get_forecast dateOf data days).map DailySummary.date) ∧
      ((get_forecast dateOf data days).map DailySummary.date).Nodup := by
  refine ⟨?_, ?_, ?_⟩
  · rw [get_forecast_eq]
    refine le_min ?_ ?_
    · calc (((sortedDates dateOf data).take days).filterMap
            (daySummary dateOf (data.list.getD []))).length
          ≤ ((sortedDates dateOf data).take days).length :=
            List.length_filterMap_le _ _
      _ ≤ (sortedDates dateOf data).length := by
            rw [List.length_take]; exact min_le_right _ _
      _ = (distinctDates dateOf data).length := sortedDates_length dateOf data
    · calc (((sortedDates dateOf data).take days).filterMap
            (daySummary dateOf (data.list.getD []))).length
          ≤ ((sortedDates dateOf data).take days).length :=
            List.length_filterMap_le _ _
      _ ≤ days := by rw [List.length_take]; exact min_le_left _ _
  · rw [get_forecast_eq]
    exact ((sortedDates_sorted_lt dateOf data).sublist
        (List.take_sublist days _)).sublist
      (map_date_filterMap_sublist dateOf _ _)
  · rw [get_forecast_eq]
    exact (((sortedDates_sorted_lt dateOf data).sublist
        (List.take_sublist days _)).sublist
      (map_date_filterMap_sublist dateOf _ _)).imp ne_of_lt

/-- The spec-side statement of the `Counter.most_common` selection rule, as
described in the spec: the chosen element occurs in the list, no element
occurs more often, and every element first encountered before it occurs
strictly less often (so a tie is resolved in favour of the element
encountered first). -/
def IsFirstMostFrequent (l : List String) (d : String) : Prop :=
  d ∈ l ∧ (∀ x ∈ l, l.count x ≤ l.count d) ∧
    ∃ p q, l = p ++ d :: q ∧ ∀ x ∈ p, l.count x < l.count d

/-- C3: the description of an emitted summary is the most frequently
occurring description among the samples of its date that have one, with
ties resolved in favour of the first-encountered description, and the icon
is chosen by the same rule. -/
theorem forecast_description_icon_most_frequent (dateOf : Int → String)
    (data : ForecastData) (days : Nat) (s : DailySummary)
    (h : s ∈ get_forecast dateOf data days) :
    (descsOf (itemsFor dateOf (data.list.getD []) s.date) ≠ [] →
      IsFirstMostFrequent (descsOf (itemsFor dateOf (data.list.getD []) s.date))
        s.description) ∧
    (iconsOf (itemsFor dateOf (data.list.getD []) s.date) ≠ [] →
      ∃ i, s.icon = some i ∧
        IsFirstMostFrequent (iconsOf (itemsFor dateOf (data.list.getD []) s.date)) i) := by
  obtain ⟨-, hsome⟩ := mem_get_forecast dateOf data days s h
  obtain ⟨-, -, -, hdesc, hicon⟩ :=
    daySummary_eq_some dateOf (data.list.getD []) s.date s hsome
  constructor
  · intro hne
    cases hmc : mostCommon (descsOf (itemsFor dateOf (data.list.getD []) s.date)) with
    | none => exact absurd ((mostCommon_eq_none _).mp hmc) hne
    | some dsc =>
      have := mostCommon_spec _ dsc hmc
      rw [hdesc, hmc, Option.getD_some]
      exact this
  · intro hne
    cases hmc : mostCommon (iconsOf (itemsFor dateOf (data.list.getD []) s.date)) with
    | none => exact absurd ((mostCommon_eq_none _).mp hmc) hne
    | some ic =>
      exact ⟨ic, by rw [hicon, hmc], mostCommon_spec _ ic hmc⟩

/-- C4: the rainfall of an emitted summary is the sum, over the samples of
its date, of the three-hour rainfall reading, an absent reading counting as
zero. -/
theorem forecast_rain_is_sum (dateOf : Int → String) (data : ForecastData)
    (days : Nat) (s : DailySummary) (h : s ∈ get_forecast dateOf data days) :
    s.rain_mm = ((itemsFor dateOf (data.list.getD []) s.date).map rainOf).sum := by
  obtain ⟨-, hsome⟩ := mem_get_forecast dateOf data days s h
  exact (daySummary_eq_some dateOf (data.list.getD []) s.date s hsome).2.2.1

/-- C5: a date is emitted by `get_forecast` exactly when it is among the
first `days` sorted date keys and at least one of its samples carries a
temperature; a selected date with no temperature sample is silently dropped
(and `get_forecast`, a total function, never fails). -/
theorem forecast_emits_date_iff (dateOf : Int → String) (data : ForecastData)
    (days : Nat) (d : String) :
    d ∈ (get_forecast dateOf data days).map DailySummary.date ↔
      (d ∈ (sortedDates dateOf data).take days ∧
        tempsOf (itemsFor dateOf (data.list.getD []) d) ≠ []) := by
  rw [get_forecast_eq]
  constructor
  · intro h
    obtain ⟨s, hs, hdate⟩ := List.mem_map.mp h
    obtain ⟨k, hk, hsome⟩ := List.mem_filterMap.mp hs
    have hkd : k = d := by
      rw [← hdate, (daySummary_eq_some dateOf (data.list.getD []) k s hsome).1]
    subst hkd
    refine ⟨hk, ?_⟩
    rw [← daySummary_isSome_iff dateOf, hsome]
    rfl
  · rintro ⟨hk, htemps⟩
    obtain ⟨s, hs⟩ := Option.isSome_iff_exists.mp
      ((daySummary_isSome_iff dateOf (data.list.getD []) d).mpr htemps)
    exact List.mem_map.mpr ⟨s, List.mem_filterMap.mpr ⟨d, hk, hs⟩,
      (daySummary_eq_some dateOf (data.list.getD []) d s hs).1⟩

/-- C6: every emitted summary has `temp_min ≤ temp_max`. -/
theorem forecast_temp_min_le_temp_max (dateOf : Int → String) (data : ForecastData)
    (days : Nat) (s : DailySummary) (h : s ∈ get_forecast dateOf data days) :
    s.temp_min ≤ s.temp_max := by
  obtain ⟨-, hsome⟩ := mem_get_forecast dateOf data days s h
  exact (daySummary_eq_some dateOf (data.list.getD []) s.date s hsome).2.1

/-- C8: a forecast response whose sample list is empty or absent yields the
empty summary sequence, not an error. -/
theorem forecast_empty_sample_list (dateOf : Int → String) (days : Nat)
    (data : ForecastData) (h : data.list = none ∨ data.list = some []) :
    get_forecast dateOf data days = [] := by
  rcases h with h | h <;>
    simp [get_forecast, h, firsts, firstsAux, List.insertionSort]

/-- C10: a selected date whose samples all lack weather entries but carry at
least one temperature is still emitted, with the empty string as its
description and no icon. -/
theorem forecast_no_weather_entries_defaults (dateOf : Int → String)
    (data : ForecastData) (days : Nat) (d : String)
    (hmem : d ∈ (sortedDates dateOf data).take days)
    (htemps : tempsOf (itemsFor dateOf (data.list.getD []) d) ≠ [])
    (hw : ∀ x ∈ itemsFor dateOf (data.list.getD []) d, x.weather = []) :
    ∃ s, s ∈ get_forecast dateOf data days ∧
      s.date = d ∧ s.description = "" ∧ s.icon = none := by
  obtain ⟨s, hs⟩ := Option.isSome_iff_exists.mp
    ((daySummary_isSome_iff dateOf (data.list.getD []) d).mpr htemps)
  obtain ⟨hdate, -, -, hdesc, hicon⟩ :=
    daySummary_eq_some dateOf (data.list.getD []) d s hs
  have hdescs : descsOf (itemsFor dateOf (data.list.getD []) d) = [] := by
    rw [descsOf, List.filterMap_eq_nil_iff]
    intro x hx
    rw [hw x hx]
    rfl
  have hicons : iconsOf (itemsFor dateOf (data.list.getD []) d) = [] := by
    rw [iconsOf, List.filterMap_eq_nil_iff]
    intro x hx
    rw [hw x hx]
    rfl
  refine ⟨s, ?_, hdate, ?_, ?_⟩
  · rw [get_forecast_eq]
    exact List.mem_filterMap.mpr ⟨d, hmem, hs⟩
  · rw [hdesc, hdescs]
    rfl
  · rw [hicon, hicons]
    rfl

/-- C2 counterexample input: a syntactically well-formed current-conditions
body whose `weather` key holds an empty array; every other optional part is
simply absent, which the projection tolerates. -/
def curDataEmptyWeather : CurrentData :=
  { name := some "London", sys := none, main := none, weather := some [],
    wind := none, clouds := none, rain := none, dt := none }

/-- C2 counterexample: on a well-formed body whose `weather` array is
present but empty, the projection of app.py raises (an `IndexError` from
`data.get("weather", [{}])[0]`, the `none` result here) even though no
required top-level envelope is missing, so the projection does not fail
only on fully malformed responses. -/
theorem get_weather_empty_weather_array_raises :
    get_weather curDataEmptyWeather = none := rfl

/-- C2 amended: the projection succeeds exactly when the `weather` key does
not hold a present-but-empty array, and on success every absent optional
object or field projects to `none` (and an absent `rain` to `0`) rather
than failing. -/
theorem get_weather_defensive (data : CurrentData) :
    ((get_weather data).isSome ↔ data.weather ≠ some []) ∧
    (∀ c, get_weather data = some c →
      (data.sys = none → c.country = none ∧ c.sunrise = none ∧ c.sunset = none) ∧
      (data.main = none →
        c.temp = none ∧ c.feels_like = none ∧ c.humidity = none ∧ c.pressure = none) ∧
      (data.wind = none → c.wind_speed = none) ∧
      (data.clouds = none → c.clouds = none) ∧
      (data.rain = none → c.rain_1h = 0) ∧
      (data.weather = none → c.description = none ∧ c.icon = none)) := by
  constructor
  · match hw : data.weather with
    | none => simp [get_weather, hw, emptyCurEntry]
    | some [] => simp [get_weather, hw]
    | some (w :: ws) => simp [get_weather, hw]
  · intro c hc
    rw [get_weather] at hc
    match hw : data.weather with
    | none =>
      rw [hw] at hc
      simp only [Option.getD_none, List.head?_cons] at hc
      injection hc with hc
      subst hc
      refine ⟨?_, ?_, ?_, ?_, ?_, ?_⟩ <;> intro h <;> simp [h, emptyCurEntry]
    | some [] =>
      rw [hw] at hc
      simp at hc
    | some (w :: ws) =>
      rw [hw] at hc
      simp only [Option.getD_some, List.head?_cons] at hc
      injection hc with hc
      subst hc
      refine ⟨?_, ?_, ?_, ?_, ?_, fun h => absurd h (by simp)⟩ <;> intro h <;> simp [h]

/-- C7: when the `rain` object is absent, or present without a `1h` field,
the projected record carries the number `0` in `rain_1h` (the field is not
optional in the result type, so it is never null). -/
theorem get_weather_rain_defaults_to_zero (data : CurrentData) (c : CurrentConditions)
    (hrain : data.rain = none ∨ ∃ r, data.rain = some r ∧ r.h1 = none)
    (h : get_weather data = some c) : c.rain_1h = 0 := by
  rw [get_weather] at h
  match hw : (data.weather.getD [emptyCurEntry]).head? with
  | none => rw [hw] at h; simp at h
  | some w0 =>
    rw [hw] at h
    injection h with h
    subst h
    rcases hrain with hr | ⟨r, hr, h1⟩
    · simp [hr]
    · simp [hr, h1]

end App

namespace FetchWeather

/-- C9 counterexample input: a fully well-formed current-conditions body for
fetch_weather.py. -/
def fwDataFull : FwData :=
  { name := some "London"
    main := some { temp := some 20, feels_like := some 19,
                   humidity := some 50, pressure := some 1000 }
    weather := some [{ description := some "clear sky", icon := some "01d" }]
    wind := some { speed := some 3 } }

/-- C9 counterexample: with the credential unset, `get_weather` in
fetch_weather.py raises a `RuntimeError` at call time — the missing
credential IS surfaced as a per-request error by a current-conditions
fetcher of this repository, even on a perfectly well-formed request. -/
theorem fw_get_weather_missing_key_per_request :
    get_weather none fwDataFull = Except.error FwError.missingKey := rfl

/-- C9 amended: in app.py the absent credential is detected once at module
startup and stops the script before any fetch (`startupKey` yields no key to
run with exactly when the environment variable is unset or empty), while
`get_weather` of fetch_weather.py surfaces the same condition as a
per-request `RuntimeError` raised before its request is issued. -/
theorem credential_missing_behaviour :
    (∀ env : Option String,
      App.startupKey env = none ↔ (env = none ∨ env = some "")) ∧
    (∀ data : FwData,
      get_weather none data = Except.error FwError.missingKey ∧
      get_weather (some "") data = Except.error FwError.missingKey) := by
  constructor
  · intro env
    match env with
    | none => simp [App.startupKey]
    | some k =>
      simp only [App.startupKey]
      by_cases hk : k = ""
      · simp [hk]
      · simp [hk]
  · intro data
    constructor <;> simp [get_weather]

end FetchWeather

namespace App

/-- A date function for the concrete examples: every timestamp falls on the
same calendar date. -/
def dfA : Int → String := fun _ => "2024-01-01"

/-- A concrete forecast response: four three-hour samples of one day, with
three-hour rain readings `0`, `2.5`, absent and `1.0`, temperatures `10`,
`12`, `11` (the last sample has no `main` object) and descriptions
`clear`, `rain`, `clear` (the last sample has no weather entry). -/
def dataA : ForecastData :=
  { list := some
      [ { dt := some 0, main := some { temp := 10 }, rain := some { h3 := some 0 },
          weather := [{ description := "clear", icon := "01d" }] },
        { dt := some 10800, main := some { temp := 12 }, rain := some { h3 := some 2.5 },
          weather := [{ description := "rain", icon := "09d" }] },
        { dt := some 21600, main := some { temp := 11 }, rain := none,
          weather := [{ description := "clear", icon := "01d" }] },
        { dt := some 32400, main := none, rain := some { h3 := some 1.0 },
          weather := [] } ] }

/-- The daily summary `get_forecast` produces for `dataA`. -/
def sA : DailySummary :=
  { date := "2024-01-01", temp_min := 10, temp_max := 12, rain_mm := 3.5,
    description := "clear", icon := some "01d" }

/-- The aggregator output on `dataA`, computed once and shared by the
witnesses below. -/
theorem forecast_evalA : get_forecast dfA dataA 5 = [sA] := by
  norm_num [get_forecast, dataA, dfA, sA, firsts, firstsAux, itemDate, itemsFor,
    daySummary, tempsOf, rainOf, descsOf, iconsOf, mostCommon,
    List.insertionSort, List.orderedInsert, List.filterMap, List.filter,
    List.count, min_def, max_def]
  decide

/-- A forecast response whose sample list is absent. -/
def dataEmpty : ForecastData :=
  { list := none }

/-- A forecast response with two samples of one day, both carrying a
temperature and neither carrying any weather entry. -/
def dataC : ForecastData :=
  { list := some
      [ { dt := some 0, main := some { temp := 7 }, rain := none, weather := [] },
        { dt := some 10800, main := some { temp := 9 }, rain := none, weather := [] } ] }

/-- Witness for C1 at `dataA` with a requested day count of two. -/
theorem forecast_length_le_and_dates_sorted_witness :
    1 ≤ 2 ∧
      ((get_forecast dfA dataA 2).length ≤ min (distinctDates dfA dataA).length 2 ∧
        List.Sorted (· < ·) ((get_forecast dfA dataA 2).map DailySummary.date) ∧
        ((get_forecast dfA dataA 2).map DailySummary.date).Nodup) :=
  ⟨by decide, forecast_length_le_and_dates_sorted dfA dataA 2 (by decide)⟩

/-- Witness for C3 at `dataA`: the sample descriptions of the one date are
`clear`, `rain`, `clear` and the emitted summary carries `clear`. -/
theorem forecast_description_icon_most_frequent_witness :
    sA ∈ get_forecast dfA dataA 5 ∧
      ((descsOf (itemsFor dfA (dataA.list.getD []) sA.date) ≠ [] →
        IsFirstMostFrequent (descsOf (itemsFor dfA (dataA.list.getD []) sA.date))
          sA.description) ∧
      (iconsOf (itemsFor dfA (dataA.list.getD []) sA.date) ≠ [] →
        ∃ i, sA.icon = some i ∧
          IsFirstMostFrequent (iconsOf (itemsFor dfA (dataA.list.getD []) sA.date)) i)) := by
  have hm : sA ∈ get_forecast dfA dataA 5 := by
    rw [forecast_evalA]
    exact List.mem_singleton.mpr rfl
  exact ⟨hm, forecast_description_icon_most_frequent dfA dataA 5 sA hm⟩

/-- Witness for C4 at `dataA`: the three-hour rain readings of the one date
are `0`, `2.5`, absent and `1.0`, and the emitted rainfall is `3.5`. -/
theorem forecast_rain_is_sum_witness :
    sA ∈ get_forecast dfA dataA 5 ∧
      sA.rain_mm = ((itemsFor dfA (dataA.list.getD []) sA.date).map rainOf).sum ∧
      sA.rain_mm = 3.5 := by
  have hm : sA ∈ get_forecast dfA dataA 5 := by
    rw [forecast_evalA]
    exact List.mem_singleton.mpr rfl
  exact ⟨hm, forecast_rain_is_sum dfA dataA 5 sA hm, rfl⟩

/-- Witness for C6 at `dataA`. -/
theorem forecast_temp_min_le_temp_max_witness :
    sA ∈ get_forecast dfA dataA 5 ∧ sA.temp_min ≤ sA.temp_max := by
  have hm : sA ∈ get_forecast dfA dataA 5 := by
    rw [forecast_evalA]
    exact List.mem_singleton.mpr rfl
  exact ⟨hm, forecast_temp_min_le_temp_max dfA dataA 5 sA hm⟩

/-- Witness for C8 at a response without a sample list. -/
theorem forecast_empty_sample_list_witness :
    (dataEmpty.list = none ∨ dataEmpty.list = some []) ∧
      get_forecast dfA dataEmpty 5 = [] :=
  ⟨Or.inl rfl, forecast_empty_sample_list dfA 5 dataEmpty (Or.inl rfl)⟩

/-- Witness for C10 at `dataC`: the one date has temperatures but no weather
entries, and is emitted with an empty description and no icon. -/
theorem forecast_no_weather_entries_defaults_witness :
    ("2024-01-01" ∈ (sortedDates dfA dataC).take 5) ∧
      ∃ s, s ∈ get_forecast dfA dataC 5 ∧
        s.date = "2024-01-01" ∧ s.description = "" ∧ s.icon = none :=
  ⟨by decide, forecast_no_weather_entries_defaults dfA dataC 5 "2024-01-01"
    (by decide) (by decide) (by decide)⟩

/-- A current-conditions body carrying none of the optional parts. -/
def curDataBare : CurrentData :=
  { name := some "London", sys := none, main := none, weather := none,
    wind := none, clouds := none, rain := none, dt := none }

/-- The record `get_weather` projects from `curDataBare`. -/
def curCondBare : CurrentConditions :=
  { city := some "London", country := none, temp := none, feels_like := none,
    humidity := none, pressure := none, description := none, icon := none,
    wind_speed := none, clouds := none, rain_1h := 0, sunrise := none,
    sunset := none, dt := none }

/-- Witness for the amended C2 at `curDataBare`: the projection succeeds and
every absent part projects to `none` (rain to `0`). -/
theorem get_weather_defensive_witness :
    (get_weather curDataBare).isSome ∧
      curCondBare.country = none ∧ curCondBare.temp = none ∧
      curCondBare.rain_1h = 0 ∧ curCondBare.description = none :=
  ⟨((get_weather_defensive curDataBare).1).mpr (by simp [curDataBare]),
   (((get_weather_defensive curDataBare).2 curCondBare rfl).1 rfl).1,
   (((get_weather_defensive curDataBare).2 curCondBare rfl).2.1 rfl).1,
   (((get_weather_defensive curDataBare).2 curCondBare rfl).2.2.2.2.1 rfl),
   (((get_weather_defensive curDataBare).2 curCondBare rfl).2.2.2.2.2 rfl).1⟩

/-- Witness for C7 at `curDataBare`. -/
theorem get_weather_rain_defaults_to_zero_witness :
    curCondBare.rain_1h = 0 :=
  get_weather_rain_defaults_to_zero curDataBare curCondBare (Or.inl rfl) rfl

/-- The first concrete tie-break instance the spec lists: with descriptions
`clear`, `rain`, `clear`, the repeated `clear` wins. -/
theorem mostCommon_repeated_element :
    mostCommon ["clear", "rain", "clear"] = some "clear" := by decide

/-- The second concrete tie-break instance the spec lists: with descriptions
`clear`, `rain` and no repeats, the first-encountered `clear` wins. -/
theorem mostCommon_tie_first_encountered :
    mostCommon ["clear", "rain"] = some "clear" := by decide

end App
